import Mathlib

/-!
Shallow embedding of `mtg/terrainWave.py` (class `TerrainWaveFile`) and of the
progress-queue protocol of `scripts/mtg/mtgMain.py` (`music_displace`).

Python 2 semantics modelled exactly:
* `sum(amps)/len(amps)` on ints is floor division: `Int.fdiv`.
* `math.trunc(float(a)/b)` on ints is division truncated toward zero: `Int.div`
  (the `float` round-trip is exact for all realistic frame counts).
* `~x+1` on a Python int equals `-x`.
* Heights are Python floats; we model them as exact rationals `ℚ`.
-/

namespace MTG

/-- An opened PCM wave stream, as `wave.Wave_read` exposes it to
`TerrainWaveFile`: header fields plus the decoded data.  Each entry of
`frames` is the tuple of signed integers that one call of the source's
`'h'`-format unpack yields for that frame (one per channel when
`sampwidth = 2`; see `unpackCodesPerFrame` for the decode-count formula
itself).  `readframes` walks `frames` left to right. -/
structure WaveStream where
  nchannels : Nat
  sampwidth : Nat
  framerate : Nat
  frames : List (List Int)
  deriving DecidableEq, Repr

/-- `self._nframes`: total frame count of the stream. -/
def nframes (s : WaveStream) : Nat := s.frames.length

/-- The distinct run-time failures of `createheightvals`, named by the raise
site in the Python source:
* `zeroDivBucketSize` — `float(self._nframes)/nvtx` with `nvtx = 0` (line 117);
* `zeroDivAverage` — `sum(amps)/len(amps)` on an empty bucket (line 87);
* `maxOfEmpty` — `max(allAmps)` on an empty list, `nvtx < 0` (line 134);
* `zeroDivScale` — `float(vheight)/max(allAmps)` with max `0` (line 134),
  the degenerate-signal failure;
* `attributeError` — reading an attribute that was never assigned. -/
inductive SampleError where
  | zeroDivBucketSize
  | zeroDivAverage
  | maxOfEmpty
  | zeroDivScale
  | attributeError
  deriving DecidableEq, Repr

/-- One message put on the optional progress queue: a `(stageName, totalUnits)`
pair, a bare progress index, or a bare string such as the caller's
`'Complete'` sentinel. -/
inductive QMsg where
  | stage (name : String) (total : Int)
  | unit (i : Nat)
  | text (msg : String)
  deriving DecidableEq, Repr

/-- `self.vtxsample = math.trunc(float(self._nframes)/nvtx)` (line 117):
frames averaged per vertex, division truncated toward zero. -/
def vtxsample (s : WaveStream) (nvtx : Int) : Int :=
  Int.tdiv (nframes s : Int) nvtx

/-- `vtxsample` as the natural read length (`nvtx > 0` in every reading run). -/
def fpbNat (s : WaveStream) (nvtx : Int) : Nat := (vtxsample s nvtx).toNat

/-- The flat amplitude tuple `parsedata` returns for bucket `i`: the decoded
values of `fpb` consecutive frames starting at frame `i * fpb`, flattened
(`struct.unpack` of the whole-bucket format string, line 77). -/
def bucket (s : WaveStream) (fpb i : Nat) : List Int :=
  ((s.frames.drop (i * fpb)).take fpb).flatten

/-- `allAmps = [self.parsedata(i) for i in xrange(nvtx)]` (line 122). -/
def parsedataAmps (s : WaveStream) (nvtx : Int) : List (List Int) :=
  (List.range nvtx.toNat).map (bucket s (fpbNat s nvtx))

/-- The `(position, length)` of each `readframes` call the pass performs. -/
def readsOf (s : WaveStream) (nvtx : Int) : List (Nat × Nat) :=
  (List.range nvtx.toNat).map (fun i => (i * fpbNat s nvtx, fpbNat s nvtx))

/-- `convertAbsolute` (line 82): `[~x+1 if x < 0 else x for x in amps]`;
for Python ints `~x+1 = -x`. -/
def convertAbsolute (amps : List Int) : List Int :=
  amps.map (fun x => if x < 0 then -x else x)

/-- The buckets after the optional sign conversion (lines 125-128). -/
def bucketsOf (s : WaveStream) (nvtx : Int) (negative : Bool) : List (List Int) :=
  if negative then parsedataAmps s nvtx
  else (parsedataAmps s nvtx).map convertAbsolute

/-- `averageAmps` (line 87) on a nonempty bucket: `sum(amps)/len(amps)`,
Python 2 floor division of ints. -/
def pyavg (amps : List Int) : Int := Int.fdiv amps.sum (amps.length : Int)

/-- The averaged amplitude per bucket on the success path (line 132). -/
def averagedVals (s : WaveStream) (nvtx : Int) (negative : Bool) : List Int :=
  (bucketsOf s nvtx negative).map pyavg

/-- Python's `max` on a list of ints (the empty case is guarded separately,
as `max([])` raises). -/
def pymax : List Int → Int
  | [] => 0
  | x :: xs => xs.foldl max x

/-- The averaging comprehension (line 132) with its queue traffic:
`queue.put(i)` fires inside `averageAmps` before the division, so the unit
for a failing bucket is emitted and the trace then stops. -/
def averagePhase : List (List Int) → Nat → List QMsg × Except SampleError (List Int)
  | [], _ => ([], Except.ok [])
  | amps :: rest, i =>
    if amps.length = 0 then ([QMsg.unit i], Except.error SampleError.zeroDivAverage)
    else
      match averagePhase rest (i + 1) with
      | (tr, Except.ok vs) => (QMsg.unit i :: tr, Except.ok (pyavg amps :: vs))
      | (tr, Except.error e) => (QMsg.unit i :: tr, Except.error e)

/-- The unit messages `0, 1, ..., n-1` a completed comprehension emits. -/
def unitMsgs (n : Nat) : List QMsg := (List.range n).map QMsg.unit

deriving instance DecidableEq for Except

/-- Outcome of one `createheightvals` call: the returned heights (or the
exception), the full progress-queue trace, and the `readframes` calls
performed. -/
structure RunResult where
  result : Except SampleError (List ℚ)
  trace : List QMsg
  reads : List (Nat × Nat)
  deriving DecidableEq, Repr

/-- `createheightvals(nvtx, vheight, negative)` (lines 94-139), run with a
progress queue attached.  Phases in source order: rewind, bucket-size
computation, reading, optional sign conversion, averaging, scaling by
`float(vheight)/max(allAmps)`. -/
def createheightvals (s : WaveStream) (nvtx : Int) (vheight : ℚ)
    (negative : Bool) : RunResult :=
  if nvtx = 0 then ⟨Except.error SampleError.zeroDivBucketSize, [], []⟩
  else
    let n := nvtx.toNat
    let readTrace := QMsg.stage "Reading WAV Data" nvtx :: unitMsgs n
    let convTrace : List QMsg :=
      if negative then []
      else QMsg.stage "Converting all Values to Positive" (n : Int) :: unitMsgs n
    let avgStage := QMsg.stage "Averaging Amplitude values" (n : Int)
    match averagePhase (bucketsOf s nvtx negative) 0 with
    | (avgTrace, Except.error e) =>
        ⟨Except.error e, readTrace ++ convTrace ++ avgStage :: avgTrace, readsOf s nvtx⟩
    | (avgTrace, Except.ok avgs) =>
        if avgs = [] then
          ⟨Except.error SampleError.maxOfEmpty,
           readTrace ++ convTrace ++ avgStage :: avgTrace, readsOf s nvtx⟩
        else if pymax avgs = 0 then
          ⟨Except.error SampleError.zeroDivScale,
           readTrace ++ convTrace ++ avgStage :: avgTrace, readsOf s nvtx⟩
        else
          ⟨Except.ok (avgs.map (fun a : Int => (a : ℚ) * (vheight / (pymax avgs : ℚ)))),
           readTrace ++ convTrace ++ avgStage :: avgTrace
             ++ QMsg.stage "Scaling to Magnitude Value" (avgs.length : Int) :: unitMsgs avgs.length,
           readsOf s nvtx⟩

/-- `'h' * ((self._nchannels*self._sampwidth) / 2)` (line 68): how many
16-bit signed codes the source's format string decodes per frame. -/
def unpackCodesPerFrame (nchannels sampwidth : Nat) : Nat :=
  nchannels * sampwidth / 2

/-- Bytes a frame actually occupies in the data chunk. -/
def frameBytes (nchannels sampwidth : Nat) : Nat := nchannels * sampwidth

/-- Bytes `struct.unpack` demands per frame: two per `'h'` code. -/
def unpackBytesPerFrame (nchannels sampwidth : Nat) : Nat :=
  2 * unpackCodesPerFrame nchannels sampwidth

/-- Instance attribute names assigned by `wave.Wave_read.initfp`/`__init__`
together with those of `TerrainWaveFile.__init__` (lines 64-72).  Note the
misspelling `_maxamplidtude` copied verbatim from line 69. -/
def instanceAttrNames : List String :=
  ["_i_opened_the_file", "_file", "_soundpos", "_nchannels", "_sampwidth",
   "_framerate", "_nframes", "_comptype", "_compname", "_convert",
   "_data_chunk", "_data_seek_needed", "_samplesize", "_songlength",
   "_unpackstructval", "_maxamplidtude", "stop", "queue", "vtxsample"]

/-- The value line 69 stores (under the misspelt name):
`2 ** self._samplesize/2`, i.e. `(2 ** (sampwidth*8)) / 2`. -/
def maxamplidtudeStored (s : WaveStream) : Nat := 2 ^ (s.sampwidth * 8) / 2

/-- `getmaxamplitude` (line 155) reads `self._maxamplitude`; Python raises
`AttributeError` when that name was never assigned. -/
def getmaxamplitude (s : WaveStream) : Except SampleError Nat :=
  if "_maxamplitude" ∈ instanceAttrNames then Except.ok (maxamplidtudeStored s)
  else Except.error SampleError.attributeError

/-- `music_displace` (mtgMain.py lines 552-555): the whole queue trace of one
terrain build is the sampler's trace, then the trace of the Maya-side
`move_vtx_positions` (host-API collaborator, passed opaquely), then the
`'Complete'` sentinel the caller puts. -/
def music_displace_trace (s : WaveStream) (nvtx : Int) (vheight : ℚ)
    (dips : Bool) (moveTrace : List QMsg) : List QMsg :=
  (createheightvals s nvtx vheight dips).trace ++ moveTrace ++ [QMsg.text "Complete"]

/-- Predicate picking the `(stageName, totalUnits)` messages out of a trace. -/
def isStageMsg : QMsg → Bool
  | QMsg.stage _ _ => true
  | _ => false

/-- The height list a successful pass returns: each averaged bucket value
times `vheight / max(averages)`. -/
def successHeights (s : WaveStream) (nvtx : Int) (vheight : ℚ)
    (negative : Bool) : List ℚ :=
  (averagedVals s nvtx negative).map
    (fun a : Int => (a : ℚ) * (vheight / (pymax (averagedVals s nvtx negative) : ℚ)))

/-- The queue trace of a successful pass. -/
def successTrace (nvtx : Int) (negative : Bool) : List QMsg :=
  QMsg.stage "Reading WAV Data" nvtx :: unitMsgs nvtx.toNat
    ++ (if negative then []
        else QMsg.stage "Converting all Values to Positive" (nvtx.toNat : Int)
          :: unitMsgs nvtx.toNat)
    ++ QMsg.stage "Averaging Amplitude values" (nvtx.toNat : Int) :: unitMsgs nvtx.toNat
    ++ QMsg.stage "Scaling to Magnitude Value" (nvtx.toNat : Int) :: unitMsgs nvtx.toNat

/-- 16-bit mono fixture with a negative spike: frames `-5`, `2`. -/
def streamNegSpike : WaveStream := ⟨1, 2, 44100, [[-5], [2]]⟩

/-- 16-bit mono all-zero (silent) fixture. -/
def streamSilent : WaveStream := ⟨1, 2, 44100, [[0], [0]]⟩

/-- 16-bit mono positive fixture: frames `2`, `4`. -/
def streamTone : WaveStream := ⟨1, 2, 44100, [[2], [4]]⟩

/-! ### Helper lemmas -/

theorem pymax_cons_cons (x y : Int) (xs : List Int) :
    pymax (x :: y :: xs) = pymax (max x y :: xs) := rfl

theorem pymax_cons_mem (x : Int) (xs : List Int) : pymax (x :: xs) ∈ x :: xs := by
  induction xs generalizing x with
  | nil => simp [pymax]
  | cons y t ih =>
    rw [pymax_cons_cons]
    have h := ih (max x y)
    rcases List.mem_cons.1 h with h1 | h1
    · rw [h1]
      rcases max_choice x y with hm | hm <;> rw [hm] <;> simp
    · simp [h1]

theorem pymax_mem (l : List Int) (h : l ≠ []) : pymax l ∈ l := by
  cases l with
  | nil => exact absurd rfl h
  | cons x xs => exact pymax_cons_mem x xs

theorem head_le_pymax (x : Int) (xs : List Int) : x ≤ pymax (x :: xs) := by
  induction xs generalizing x with
  | nil => simp [pymax]
  | cons y t ih =>
    rw [pymax_cons_cons]
    exact le_trans (le_max_left x y) (ih (max x y))

theorem le_pymax (l : List Int) (a : Int) (ha : a ∈ l) : a ≤ pymax l := by
  cases l with
  | nil => exact absurd ha (List.not_mem_nil a)
  | cons x xs =>
    induction xs generalizing x with
    | nil =>
      rcases List.mem_cons.1 ha with rfl | h1
      · simp [pymax]
      · exact absurd h1 (List.not_mem_nil a)
    | cons y t ih =>
      rw [pymax_cons_cons]
      rcases List.mem_cons.1 ha with rfl | h1
      · exact le_trans (le_max_left a y) (head_le_pymax (max a y) t)
      · rcases List.mem_cons.1 h1 with rfl | h2
        · exact le_trans (le_max_right x a) (head_le_pymax (max x a) t)
        · exact ih (max x y) (List.mem_cons_of_mem _ h2)

theorem pymax_eq_zero_of_all_zero (l : List Int) (hne : l ≠ [])
    (h : ∀ a ∈ l, a = 0) : pymax l = 0 :=
  h _ (pymax_mem l hne)

theorem averagePhase_of_nonempty (bs : List (List Int)) (i : Nat)
    (h : ∀ b ∈ bs, b ≠ []) :
    averagePhase bs i =
      ((List.range' i bs.length).map QMsg.unit, Except.ok (bs.map pyavg)) := by
  induction bs generalizing i with
  | nil => simp [averagePhase]
  | cons b t ih =>
    have hb : b ≠ [] := h b (List.mem_cons_self _ _)
    have hlen : ¬ b.length = 0 := by simpa [List.length_eq_zero] using hb
    rw [averagePhase, if_neg hlen, ih (i + 1) (fun x hx => h x (List.mem_cons_of_mem _ hx))]
    simp [List.range'_succ]

theorem averagePhase_snd_err (bs : List (List Int)) (i : Nat)
    (h : ¬ ∀ b ∈ bs, b ≠ []) :
    (averagePhase bs i).2 = Except.error SampleError.zeroDivAverage := by
  induction bs generalizing i with
  | nil => exact absurd (by simp) h
  | cons b t ih =>
    by_cases hb : b.length = 0
    · simp [averagePhase, hb]
    · have hbne : b ≠ [] := by simpa [List.length_eq_zero] using hb
      have ht : ¬ ∀ x ∈ t, x ≠ [] := by
        intro hall
        exact h (by
          intro x hx
          rcases List.mem_cons.1 hx with rfl | h2
          · exact hbne
          · exact hall x h2)
      have hrec := ih (i + 1) ht
      rw [averagePhase, if_neg hb]
      rcases hE : averagePhase t (i + 1) with ⟨tr, r⟩
      rw [hE] at hrec
      cases r with
      | ok vs => exact absurd hrec (by simp)
      | error e => simp at hrec; simp [hrec]

theorem bucketsOf_length (s : WaveStream) (nvtx : Int) (negative : Bool) :
    (bucketsOf s nvtx negative).length = nvtx.toNat := by
  cases negative <;> simp [bucketsOf, parsedataAmps]

theorem fpbNat_coe (s : WaveStream) (n : Nat) :
    fpbNat s (n : Int) = nframes s / n := by
  rw [fpbNat, vtxsample, ← Int.ofNat_tdiv]
  exact Int.toNat_ofNat _

theorem bucket_ne_nil (s : WaveStream) (n i : Nat) (hn : 0 < n)
    (hfc : n ≤ nframes s) (hframes : ∀ f ∈ s.frames, f ≠ []) (hi : i < n) :
    bucket s (nframes s / n) i ≠ [] := by
  have hfpb1 : 1 ≤ nframes s / n := (Nat.one_le_div_iff hn).2 hfc
  have hmul : n * (nframes s / n) ≤ nframes s := by
    calc n * (nframes s / n) = nframes s / n * n := Nat.mul_comm _ _
    _ ≤ nframes s := Nat.div_mul_le_self _ _
  have hup : (i + 1) * (nframes s / n) ≤ n * (nframes s / n) :=
    Nat.mul_le_mul_right _ hi
  have hlen : ((s.frames.drop (i * (nframes s / n))).take (nframes s / n)).length
      = nframes s / n := by
    rw [List.length_take, List.length_drop]
    have hbound : i * (nframes s / n) + nframes s / n ≤ nframes s := by
      have h2 := le_trans hup hmul
      calc i * (nframes s / n) + nframes s / n
          = (i + 1) * (nframes s / n) := by ring
        _ ≤ nframes s := h2
    have hnf : s.frames.length = nframes s := rfl
    rw [hnf]
    omega
  have hne : (s.frames.drop (i * (nframes s / n))).take (nframes s / n) ≠ [] := by
    intro hcon
    rw [hcon] at hlen
    simp at hlen
    omega
  rw [bucket, Ne, List.flatten_eq_nil_iff]
  push_neg
  obtain ⟨f, hf⟩ := List.exists_mem_of_ne_nil _ hne
  exact ⟨f, hf, hframes f (List.drop_subset _ _ (List.take_subset _ _ hf))⟩

theorem convertAbsolute_ne_nil (b : List Int) (hb : b ≠ []) :
    convertAbsolute b ≠ [] := by
  simpa [convertAbsolute] using hb

theorem bucketsOf_forall_ne_nil (s : WaveStream) (n : Nat) (negative : Bool)
    (hn : 0 < n) (hfc : n ≤ nframes s) (hframes : ∀ f ∈ s.frames, f ≠ []) :
    ∀ b ∈ bucketsOf s (n : Int) negative, b ≠ [] := by
  intro b hb
  cases negative with
  | true =>
    rw [bucketsOf, if_pos rfl] at hb
    obtain ⟨i, hi, rfl⟩ := List.mem_map.1 hb
    rw [fpbNat_coe]
    exact bucket_ne_nil s n i hn hfc hframes
      (by simpa [Int.toNat_ofNat] using List.mem_range.1 hi)
  | false =>
    rw [bucketsOf, if_neg (by simp)] at hb
    obtain ⟨b0, hb0, rfl⟩ := List.mem_map.1 hb
    obtain ⟨i, hi, rfl⟩ := List.mem_map.1 hb0
    apply convertAbsolute_ne_nil
    rw [fpbNat_coe]
    exact bucket_ne_nil s n i hn hfc hframes
      (by simpa [Int.toNat_ofNat] using List.mem_range.1 hi)

theorem bucketsOf_ne_nil (s : WaveStream) (n : Nat) (negative : Bool)
    (hn : 0 < n) : bucketsOf s (n : Int) negative ≠ [] := by
  intro hcon
  have := bucketsOf_length s (n : Int) negative
  rw [hcon] at this
  simp at this
  omega

theorem createheightvals_run_ok (s : WaveStream) (nvtx : Int) (vheight : ℚ)
    (negative : Bool) (h1 : nvtx ≠ 0)
    (h2 : ∀ b ∈ bucketsOf s nvtx negative, b ≠ [])
    (h3 : bucketsOf s nvtx negative ≠ [])
    (h4 : pymax (averagedVals s nvtx negative) ≠ 0) :
    createheightvals s nvtx vheight negative =
      ⟨Except.ok (successHeights s nvtx vheight negative),
       successTrace nvtx negative, readsOf s nvtx⟩ := by
  have hmapne : (bucketsOf s nvtx negative).map pyavg ≠ [] := by
    simpa using h3
  have h4' : ¬ pymax ((bucketsOf s nvtx negative).map pyavg) = 0 := h4
  rw [createheightvals, if_neg h1, averagePhase_of_nonempty _ 0 h2]
  simp only [if_neg hmapne, if_neg h4']
  have hlen : (bucketsOf s nvtx negative).length = nvtx.toNat :=
    bucketsOf_length s nvtx negative
  have hrange : (List.range' 0 (bucketsOf s nvtx negative).length).map QMsg.unit
      = unitMsgs nvtx.toNat := by
    rw [hlen, unitMsgs, List.range_eq_range']
  have hmaplen : ((bucketsOf s nvtx negative).map pyavg).length = nvtx.toNat := by
    rw [List.length_map, hlen]
  rw [RunResult.mk.injEq]
  refine ⟨rfl, ?_, rfl⟩
  rw [hrange, hmaplen, successTrace]

theorem createheightvals_result_of_err (s : WaveStream) (nvtx : Int)
    (vheight : ℚ) (negative : Bool) (e : SampleError) (h1 : nvtx ≠ 0)
    (h2 : (averagePhase (bucketsOf s nvtx negative) 0).2 = Except.error e) :
    (createheightvals s nvtx vheight negative).result = Except.error e := by
  rw [createheightvals, if_neg h1]
  rcases hE : averagePhase (bucketsOf s nvtx negative) 0 with ⟨tr, r⟩
  rw [hE] at h2
  cases r with
  | ok vs => exact absurd h2 (by simp)
  | error e2 => simp at h2; simp [h2]

theorem createheightvals_result_of_empty (s : WaveStream) (nvtx : Int)
    (vheight : ℚ) (negative : Bool) (h1 : nvtx ≠ 0)
    (h3 : bucketsOf s nvtx negative = []) :
    (createheightvals s nvtx vheight negative).result =
      Except.error SampleError.maxOfEmpty := by
  rw [createheightvals, if_neg h1, h3]
  rfl

theorem createheightvals_result_of_zero_max (s : WaveStream) (nvtx : Int)
    (vheight : ℚ) (negative : Bool) (h1 : nvtx ≠ 0)
    (h2 : ∀ b ∈ bucketsOf s nvtx negative, b ≠ [])
    (h3 : bucketsOf s nvtx negative ≠ [])
    (h4 : pymax (averagedVals s nvtx negative) = 0) :
    (createheightvals s nvtx vheight negative).result =
      Except.error SampleError.zeroDivScale := by
  have hmapne : ¬ (bucketsOf s nvtx negative).map pyavg = [] := by
    simpa using h3
  rw [createheightvals, if_neg h1, averagePhase_of_nonempty _ 0 h2]
  simp only [if_neg hmapne, if_pos (show pymax ((bucketsOf s nvtx negative).map pyavg) = 0 from h4)]

theorem createheightvals_ok_elim (s : WaveStream) (nvtx : Int) (vheight : ℚ)
    (negative : Bool) (hs : List ℚ)
    (h : (createheightvals s nvtx vheight negative).result = Except.ok hs) :
    nvtx ≠ 0 ∧ (∀ b ∈ bucketsOf s nvtx negative, b ≠ []) ∧
    bucketsOf s nvtx negative ≠ [] ∧
    pymax (averagedVals s nvtx negative) ≠ 0 ∧
    hs = successHeights s nvtx vheight negative := by
  by_cases h1 : nvtx = 0
  · rw [createheightvals, if_pos h1] at h
    exact absurd h (by simp)
  by_cases h2 : ∀ b ∈ bucketsOf s nvtx negative, b ≠ []
  · by_cases h3 : bucketsOf s nvtx negative = []
    · rw [createheightvals_result_of_empty s nvtx vheight negative h1 h3] at h
      exact absurd h (by simp)
    by_cases h4 : pymax (averagedVals s nvtx negative) = 0
    · rw [createheightvals_result_of_zero_max s nvtx vheight negative h1 h2 h3 h4] at h
      exact absurd h (by simp)
    · rw [createheightvals_run_ok s nvtx vheight negative h1 h2 h3 h4] at h
      simp only [Except.ok.injEq] at h
      exact ⟨h1, h2, h3, h4, h.symm⟩
  · have herr := averagePhase_snd_err (bucketsOf s nvtx negative) 0 h2
    rw [createheightvals_result_of_err s nvtx vheight negative
      SampleError.zeroDivAverage h1 herr] at h
    exact absurd h (by simp)

theorem createheightvals_reads_eq (s : WaveStream) (nvtx : Int) (vheight : ℚ)
    (negative : Bool) (h1 : nvtx ≠ 0) :
    (createheightvals s nvtx vheight negative).reads = readsOf s nvtx := by
  rw [createheightvals, if_neg h1]
  rcases hE : averagePhase (bucketsOf s nvtx negative) 0 with ⟨tr, r⟩
  cases r with
  | ok vs =>
    by_cases h3 : vs = []
    · simp [h3]
    · by_cases h4 : pymax vs = 0 <;> simp [h3, h4]
  | error e => simp

theorem convertAbsolute_nonneg (b : List Int) : ∀ x ∈ convertAbsolute b, 0 ≤ x := by
  intro x hx
  obtain ⟨y, hy, rfl⟩ := List.mem_map.1 hx
  by_cases h : y < 0 <;> simp [h] <;> omega

theorem pyavg_nonneg (b : List Int) (hb : ∀ x ∈ b, 0 ≤ x) : 0 ≤ pyavg b :=
  Int.fdiv_nonneg (List.sum_nonneg hb) (by exact_mod_cast Nat.zero_le _)

theorem averagedVals_nonneg (s : WaveStream) (nvtx : Int) :
    ∀ a ∈ averagedVals s nvtx false, 0 ≤ a := by
  intro a ha
  rw [averagedVals] at ha
  obtain ⟨b, hb, rfl⟩ := List.mem_map.1 ha
  rw [bucketsOf, if_neg (by simp)] at hb
  obtain ⟨b0, hb0, rfl⟩ := List.mem_map.1 hb
  exact pyavg_nonneg _ (convertAbsolute_nonneg b0)

theorem averagedVals_length (s : WaveStream) (nvtx : Int) (negative : Bool) :
    (averagedVals s nvtx negative).length = nvtx.toNat := by
  rw [averagedVals, List.length_map, bucketsOf_length]

theorem bucketsOf_all_zero (s : WaveStream) (nvtx : Int) (negative : Bool)
    (hzero : ∀ f ∈ s.frames, ∀ x ∈ f, x = 0) :
    ∀ b ∈ bucketsOf s nvtx negative, ∀ x ∈ b, x = 0 := by
  have hbucket : ∀ fpb i, ∀ x ∈ bucket s fpb i, x = 0 := by
    intro fpb i x hx
    rw [bucket] at hx
    obtain ⟨f, hf, hxf⟩ := List.mem_flatten.1 hx
    exact hzero f (List.drop_subset _ _ (List.take_subset _ _ hf)) x hxf
  intro b hb x hx
  cases negative with
  | true =>
    rw [bucketsOf, if_pos rfl] at hb
    obtain ⟨i, hi, rfl⟩ := List.mem_map.1 hb
    exact hbucket _ i x hx
  | false =>
    rw [bucketsOf, if_neg (by simp)] at hb
    obtain ⟨b0, hb0, rfl⟩ := List.mem_map.1 hb
    obtain ⟨i, hi, rfl⟩ := List.mem_map.1 hb0
    obtain ⟨y, hy, rfl⟩ := List.mem_map.1 hx
    have hy0 : y = 0 := hbucket _ i y hy
    simp [hy0]

theorem averagedVals_all_zero (s : WaveStream) (nvtx : Int) (negative : Bool)
    (hzero : ∀ f ∈ s.frames, ∀ x ∈ f, x = 0) :
    ∀ a ∈ averagedVals s nvtx negative, a = 0 := by
  intro a ha
  rw [averagedVals] at ha
  obtain ⟨b, hb, rfl⟩ := List.mem_map.1 ha
  rw [pyavg, List.sum_eq_zero (bucketsOf_all_zero s nvtx negative hzero b hb)]
  exact Int.zero_fdiv _

theorem averagedVals_ne_nil (s : WaveStream) (n : Nat) (negative : Bool)
    (hn : 0 < n) : averagedVals s (n : Int) negative ≠ [] := by
  rw [averagedVals, Ne, List.map_eq_nil_iff]
  exact bucketsOf_ne_nil s n negative hn

theorem eval_negSpike_run :
    (createheightvals streamNegSpike ((2 : Nat) : Int) 2 true).result =
      Except.ok [(-5 : ℚ), 2] := by
  rw [createheightvals_run_ok streamNegSpike ((2 : Nat) : Int) 2 true
    (by decide) (by decide) (by decide) (by decide)]
  have havg : averagedVals streamNegSpike ((2 : Nat) : Int) true = [-5, 2] := by decide
  have hM : pymax [(-5 : Int), 2] = 2 := by decide
  simp only [successHeights, havg, hM, List.map_cons, List.map_nil]
  norm_num

theorem eval_tone_run10 :
    (createheightvals streamTone ((2 : Nat) : Int) 10 false).result =
      Except.ok [(5 : ℚ), 10] := by
  rw [createheightvals_run_ok streamTone ((2 : Nat) : Int) 10 false
    (by decide) (by decide) (by decide) (by decide)]
  have havg : averagedVals streamTone ((2 : Nat) : Int) false = [2, 4] := by decide
  have hM : pymax [(2 : Int), 4] = 4 := by decide
  simp only [successHeights, havg, hM, List.map_cons, List.map_nil]
  norm_num

/-! ### Claims -/

/-- C2: for every valid vertexCount at least 1 and every stream holding at
least that many frames, a height sequence returned by `createheightvals`
has length exactly vertexCount. -/
theorem C2_length (s : WaveStream) (n : Nat) (vheight : ℚ) (negative : Bool)
    (hn : 1 ≤ n) (hfc : n ≤ nframes s) (hs : List ℚ)
    (h : (createheightvals s (n : Int) vheight negative).result = Except.ok hs) :
    hs.length = n := by
  obtain ⟨-, -, -, -, hEq⟩ := createheightvals_ok_elim s (n : Int) vheight negative hs h
  rw [hEq, successHeights, List.length_map, averagedVals_length]
  exact Int.toNat_ofNat n

/-- C2 witness: the negative-spike fixture with vertexCount 2 returns the
two heights `-5, 2`. -/
theorem C2_length_witness : ([(-5 : ℚ), 2] : List ℚ).length = 2 :=
  C2_length streamNegSpike 2 2 true (by decide) (by decide) [(-5 : ℚ), 2]
    eval_negSpike_run

/-- C4: a stream whose decoded samples are all zero makes `createheightvals`
fail with the degenerate-signal division by zero when the scaling ratio
`float(vheight)/max(allAmps)` is formed (line 134). -/
theorem C4_silent (s : WaveStream) (n : Nat) (vheight : ℚ) (negative : Bool)
    (hn : 0 < n) (hfc : n ≤ nframes s) (hframes : ∀ f ∈ s.frames, f ≠ [])
    (hzero : ∀ f ∈ s.frames, ∀ x ∈ f, x = 0) :
    (createheightvals s (n : Int) vheight negative).result =
      Except.error SampleError.zeroDivScale := by
  have h1 : (n : Int) ≠ 0 := by omega
  have h2 := bucketsOf_forall_ne_nil s n negative hn hfc hframes
  have h3 := bucketsOf_ne_nil s n negative hn
  have h4 : pymax (averagedVals s (n : Int) negative) = 0 :=
    pymax_eq_zero_of_all_zero _ (averagedVals_ne_nil s n negative hn)
      (averagedVals_all_zero s (n : Int) negative hzero)
  exact createheightvals_result_of_zero_max s (n : Int) vheight negative h1 h2 h3 h4

/-- C4 witness: the two-frame silent fixture fails with the scale-step
division by zero. -/
theorem C4_silent_witness :
    (createheightvals streamSilent ((2 : Nat) : Int) 16 false).result =
      Except.error SampleError.zeroDivScale :=
  C4_silent streamSilent 2 16 false (by decide) (by decide) (by decide) (by decide)

/-- C5 (amended): a nonpositive vertexCount does make the call fail — with
the division by zero in the bucket-size computation for `nvtx = 0` and with
`max` over an empty sequence for `nvtx < 0` — but a nonpositive
targetMagnitude is never validated and the call can succeed (see the
counterexample); no InvalidArgumentError is raised anywhere. -/
theorem C5_amended (s : WaveStream) (nvtx : Int) (vheight : ℚ) (negative : Bool)
    (h : nvtx ≤ 0) :
    (createheightvals s nvtx vheight negative).result =
      Except.error (if nvtx = 0 then SampleError.zeroDivBucketSize
        else SampleError.maxOfEmpty) := by
  by_cases h0 : nvtx = 0
  · rw [if_pos h0, createheightvals, if_pos h0]
  · rw [if_neg h0]
    apply createheightvals_result_of_empty s nvtx vheight negative h0
    have hton : nvtx.toNat = 0 := Int.toNat_of_nonpos h
    cases negative <;> simp [bucketsOf, parsedataAmps, hton]

/-- C5 counterexample: targetMagnitude 0 (and likewise any nonpositive
magnitude) is not rejected — the call returns a height list. -/
theorem C5_counterexample :
    (createheightvals streamTone 2 0 true).result = Except.ok [(0 : ℚ), 0] := by
  rw [createheightvals_run_ok streamTone 2 0 true
    (by decide) (by decide) (by decide) (by decide)]
  have havg : averagedVals streamTone 2 true = [2, 4] := by decide
  have hM : pymax [(2 : Int), 4] = 4 := by decide
  simp only [successHeights, havg, hM, List.map_cons, List.map_nil]
  norm_num

/-- C5 witness: vertexCount `-1` fails with the empty-max error. -/
theorem C5_amended_witness :
    (createheightvals streamTone (-1) 16 false).result =
      Except.error (if (-1 : Int) = 0 then SampleError.zeroDivBucketSize
        else SampleError.maxOfEmpty) :=
  C5_amended streamTone (-1) 16 false (by decide)

/-- C6: the bucket size is floor(frameCount/vertexCount); the pass performs
exactly vertexCount reads of that many consecutive frames, in stream order
starting from frame 0, so vertexCount * floor(frameCount/vertexCount)
frames are consumed and the trailing remainder is never read. -/
theorem C6_drop_remainder (s : WaveStream) (n : Nat) (vheight : ℚ)
    (negative : Bool) (hn : 1 ≤ n) (hfc : n ≤ nframes s) :
    fpbNat s (n : Int) = nframes s / n ∧
    (createheightvals s (n : Int) vheight negative).reads =
      (List.range n).map (fun i => (i * (nframes s / n), nframes s / n)) ∧
    ((createheightvals s (n : Int) vheight negative).reads).length = n ∧
    (∀ p ∈ (createheightvals s (n : Int) vheight negative).reads,
      p.1 + p.2 ≤ n * (nframes s / n)) ∧
    n * (nframes s / n) ≤ nframes s := by
  have h1 : (n : Int) ≠ 0 := by omega
  have hreads := createheightvals_reads_eq s (n : Int) vheight negative h1
  have hfpb := fpbNat_coe s n
  refine ⟨hfpb, ?_, ?_, ?_, ?_⟩
  · rw [hreads, readsOf, hfpb, Int.toNat_ofNat]
  · rw [hreads, readsOf]
    simp
  · rw [hreads, readsOf, hfpb, Int.toNat_ofNat]
    intro p hp
    obtain ⟨i, hi, rfl⟩ := List.mem_map.1 hp
    have hi2 := List.mem_range.1 hi
    calc i * (nframes s / n) + nframes s / n = (i + 1) * (nframes s / n) := by ring
      _ ≤ n * (nframes s / n) := Nat.mul_le_mul_right _ hi2
  · calc n * (nframes s / n) = nframes s / n * n := Nat.mul_comm _ _
      _ ≤ nframes s := Nat.div_mul_le_self _ _

/-- C6 witness: the tone fixture, vertexCount 2 over 2 frames: one frame per
bucket, reads at positions 0 and 1, both frames consumed. -/
theorem C6_drop_remainder_witness :
    fpbNat streamTone ((2 : Nat) : Int) = nframes streamTone / 2 ∧
    (createheightvals streamTone ((2 : Nat) : Int) 16 false).reads =
      (List.range 2).map (fun i => (i * (nframes streamTone / 2), nframes streamTone / 2)) ∧
    ((createheightvals streamTone ((2 : Nat) : Int) 16 false).reads).length = 2 ∧
    (∀ p ∈ (createheightvals streamTone ((2 : Nat) : Int) 16 false).reads,
      p.1 + p.2 ≤ 2 * (nframes streamTone / 2)) ∧
    2 * (nframes streamTone / 2) ≤ nframes streamTone :=
  C6_drop_remainder streamTone 2 16 false (by decide) (by decide)

/-- C7 (code bug): line 68 decodes `(channelCount*sampleWidthBytes)/2`
16-bit signed codes per frame.  That equals channelCount (with the claimed
signed range) only when sampleWidthBytes is 2: a mono 8-bit frame decodes to
0 integers while occupying 1 byte (so every unpack raises struct.error),
and a stereo 8-bit frame decodes to 1 integer, not 2. -/
theorem C7_code_bug :
    unpackCodesPerFrame 1 2 = 1 ∧ unpackCodesPerFrame 2 2 = 2 ∧
    unpackBytesPerFrame 1 2 = frameBytes 1 2 ∧
    unpackBytesPerFrame 2 2 = frameBytes 2 2 ∧
    unpackCodesPerFrame 1 1 = 0 ∧
    unpackBytesPerFrame 1 1 ≠ frameBytes 1 1 ∧
    unpackCodesPerFrame 2 1 = 1 := by decide

/-- C10 (code bug): `__init__` stores the maximum amplitude under the
misspelt attribute name `_maxamplidtude` (line 69), so `getmaxamplitude`,
which reads `self._maxamplitude`, raises AttributeError on every stream;
the stored value itself is `2 ** sampleSizeBits / 2` (2^15 for the 16-bit
fixture), matching the claimed magnitude. -/
theorem C10_code_bug :
    (∀ s : WaveStream, getmaxamplitude s = Except.error SampleError.attributeError) ∧
    "_maxamplitude" ∉ instanceAttrNames ∧
    "_maxamplidtude" ∈ instanceAttrNames ∧
    maxamplidtudeStored streamTone = 2 ^ 15 := by
  refine ⟨?_, by decide, by decide, by decide⟩
  intro s
  rw [getmaxamplitude, if_neg (by decide)]

/-- C1 counterexample: the negative-spike fixture is non-silent, has
frameCount 2 >= vertexCount 2 and targetMagnitude 2 > 0, yet with
allowNegative = true the call returns `[-5, 2]`: the output `-5` lies
outside `[-targetMagnitude, targetMagnitude]` and `max(abs value) = 5`,
not 2, because the code scales by `vheight / max(averages)` rather than by
the maximum absolute average. -/
theorem C1_counterexample :
    (¬ ∀ f ∈ streamNegSpike.frames, ∀ x ∈ f, x = 0) ∧
    2 ≤ nframes streamNegSpike ∧
    (createheightvals streamNegSpike ((2 : Nat) : Int) 2 true).result =
      Except.ok [(-5 : ℚ), 2] ∧
    ¬ (-2 : ℚ) ≤ -5 := by
  refine ⟨by decide, by decide, eval_negSpike_run, by norm_num⟩

/-- C1 (amended): provided the maximum bucket average is positive (which a
non-silent stream does not guarantee: floor-averaging can collapse a quiet
bucket to 0, and with allowNegative the maximum can be 0 or negative), the
call succeeds and the maximum output equals targetMagnitude exactly; with
allowNegative = false every output also lies in [0, targetMagnitude], but
with allowNegative = true outputs are only bounded above by targetMagnitude
and can fall below -targetMagnitude. -/
theorem C1_amended (s : WaveStream) (n : Nat) (vheight : ℚ) (negative : Bool)
    (hn : 0 < n) (hfc : n ≤ nframes s)
    (hframes : ∀ f ∈ s.frames, f ≠ [])
    (hpos : 0 < vheight)
    (hmax : 0 < pymax (averagedVals s (n : Int) negative)) :
    ∃ hs, (createheightvals s (n : Int) vheight negative).result = Except.ok hs ∧
      vheight ∈ hs ∧ (∀ x ∈ hs, x ≤ vheight) ∧
      (negative = false → ∀ x ∈ hs, 0 ≤ x) := by
  have h1 : (n : Int) ≠ 0 := by omega
  have h2 := bucketsOf_forall_ne_nil s n negative hn hfc hframes
  have h3 := bucketsOf_ne_nil s n negative hn
  have h4 : pymax (averagedVals s (n : Int) negative) ≠ 0 := ne_of_gt hmax
  have hMpos : (0 : ℚ) < ((pymax (averagedVals s (n : Int) negative) : Int) : ℚ) := by
    exact_mod_cast hmax
  have hMne : ((pymax (averagedVals s (n : Int) negative) : Int) : ℚ) ≠ 0 :=
    ne_of_gt hMpos
  refine ⟨successHeights s (n : Int) vheight negative, ?_, ?_, ?_, ?_⟩
  · rw [createheightvals_run_ok s (n : Int) vheight negative h1 h2 h3 h4]
  · rw [successHeights]
    refine List.mem_map.2
      ⟨pymax (averagedVals s (n : Int) negative),
       pymax_mem _ (averagedVals_ne_nil s n negative hn), ?_⟩
    field_simp
  · intro x hx
    rw [successHeights] at hx
    obtain ⟨a, ha, rfl⟩ := List.mem_map.1 hx
    have haM : (a : ℚ) ≤ ((pymax (averagedVals s (n : Int) negative) : Int) : ℚ) := by
      exact_mod_cast le_pymax _ a ha
    have hr : 0 < vheight / ((pymax (averagedVals s (n : Int) negative) : Int) : ℚ) :=
      div_pos hpos hMpos
    calc (a : ℚ) * (vheight / (pymax (averagedVals s (n : Int) negative) : ℚ))
        ≤ ((pymax (averagedVals s (n : Int) negative) : Int) : ℚ)
            * (vheight / (pymax (averagedVals s (n : Int) negative) : ℚ)) :=
          mul_le_mul_of_nonneg_right haM (le_of_lt hr)
      _ = vheight := by field_simp
  · intro hneg x hx
    subst hneg
    rw [successHeights] at hx
    obtain ⟨a, ha, rfl⟩ := List.mem_map.1 hx
    have ha0 : (0 : ℚ) ≤ (a : ℚ) := by
      exact_mod_cast averagedVals_nonneg s ((n : Nat) : Int) a ha
    exact mul_nonneg ha0 (le_of_lt (div_pos hpos hMpos))

/-- C1 witness: the amended statement applied to the negative-spike fixture
with allowNegative = true. -/
theorem C1_amended_witness :
    ∃ hs, (createheightvals streamNegSpike ((2 : Nat) : Int) 2 true).result =
        Except.ok hs ∧
      (2 : ℚ) ∈ hs ∧ (∀ x ∈ hs, x ≤ 2) ∧
      (true = false → ∀ x ∈ hs, 0 ≤ x) :=
  C1_amended streamNegSpike 2 2 true (by decide) (by decide) (by decide)
    (by norm_num) (by decide)

/-- C3 counterexample: with 2 frames and vertexCount 3 the bucket size
truncates to 0 and the code does attempt three zero-length reads; only
afterwards does it fail, with the division by zero in `averageAmps` on the
empty first bucket — not before reading, and not with any dedicated
insufficient-data error. -/
theorem C3_counterexample :
    (createheightvals streamNegSpike 3 10 false).reads =
      [(0, 0), (0, 0), (0, 0)] ∧
    (0, 0) ∈ (createheightvals streamNegSpike 3 10 false).reads ∧
    (createheightvals streamNegSpike 3 10 false).result =
      Except.error SampleError.zeroDivAverage := by
  refine ⟨by decide, by decide, by decide⟩

/-- C3 (amended): whenever vertexCount exceeds frameCount the call does
fail, but only after performing vertexCount zero-length reads; the failure
is the division by zero in `averageAmps` over the empty first bucket. -/
theorem C3_amended (s : WaveStream) (n : Nat) (vheight : ℚ) (negative : Bool)
    (h : nframes s < n) :
    (createheightvals s (n : Int) vheight negative).result =
      Except.error SampleError.zeroDivAverage ∧
    (createheightvals s (n : Int) vheight negative).reads =
      List.replicate n (0, 0) := by
  have hn : 0 < n := Nat.lt_of_le_of_lt (Nat.zero_le _) h
  have h1 : (n : Int) ≠ 0 := by omega
  have hfpb : fpbNat s (n : Int) = 0 := by
    rw [fpbNat_coe]
    exact Nat.div_eq_of_lt h
  have hton : ((n : Int)).toNat = n := Int.toNat_ofNat n
  have hb0 : bucket s (fpbNat s (n : Int)) 0 = [] := by
    rw [hfpb, bucket]
    simp
  have hmem0 : bucket s (fpbNat s (n : Int)) 0 ∈ parsedataAmps s (n : Int) := by
    rw [parsedataAmps]
    exact List.mem_map.2 ⟨0, List.mem_range.2 (by omega), rfl⟩
  have hmem : ∃ b ∈ bucketsOf s (n : Int) negative, b = [] := by
    cases negative with
    | true =>
      rw [bucketsOf, if_pos rfl]
      exact ⟨_, hmem0, hb0⟩
    | false =>
      rw [bucketsOf, if_neg (by simp)]
      exact ⟨convertAbsolute (bucket s (fpbNat s (n : Int)) 0),
        List.mem_map.2 ⟨_, hmem0, rfl⟩, by rw [hb0]; rfl⟩
  have hnot : ¬ ∀ b ∈ bucketsOf s (n : Int) negative, b ≠ [] := by
    intro hall
    obtain ⟨b, hb, hbe⟩ := hmem
    exact hall b hb hbe
  refine ⟨?_, ?_⟩
  · exact createheightvals_result_of_err s (n : Int) vheight negative
      SampleError.zeroDivAverage h1 (averagePhase_snd_err _ 0 hnot)
  · rw [createheightvals_reads_eq s (n : Int) vheight negative h1, readsOf,
      hfpb, hton]
    rw [List.eq_replicate_iff]
    refine ⟨by simp, ?_⟩
    intro p hp
    obtain ⟨i, hi, rfl⟩ := List.mem_map.1 hp
    simp

/-- C3 witness: the amended statement at the tone fixture with
vertexCount 5 over 2 frames. -/
theorem C3_amended_witness :
    (createheightvals streamTone ((5 : Nat) : Int) 1 true).result =
      Except.error SampleError.zeroDivAverage ∧
    (createheightvals streamTone ((5 : Nat) : Int) 1 true).reads =
      List.replicate 5 (0, 0) :=
  C3_amended streamTone 5 1 true (by decide)

/-- C8: doubling targetMagnitude scales every output elementwise by 2
(exactly, in the exact rational model of float arithmetic); failing runs
fail identically. -/
theorem C8_scale_linear (s : WaveStream) (nvtx : Int) (vheight : ℚ)
    (negative : Bool) (hpos : 0 < vheight) :
    (createheightvals s nvtx (2 * vheight) negative).result =
      Except.map (List.map (fun x : ℚ => 2 * x))
        (createheightvals s nvtx vheight negative).result := by
  by_cases h1 : nvtx = 0
  · simp only [createheightvals, if_pos h1]
    rfl
  by_cases h2 : ∀ b ∈ bucketsOf s nvtx negative, b ≠ []
  · by_cases h3 : bucketsOf s nvtx negative = []
    · rw [createheightvals_result_of_empty s nvtx (2 * vheight) negative h1 h3,
        createheightvals_result_of_empty s nvtx vheight negative h1 h3]
      rfl
    by_cases h4 : pymax (averagedVals s nvtx negative) = 0
    · rw [createheightvals_result_of_zero_max s nvtx (2 * vheight) negative h1 h2 h3 h4,
        createheightvals_result_of_zero_max s nvtx vheight negative h1 h2 h3 h4]
      rfl
    · rw [createheightvals_run_ok s nvtx (2 * vheight) negative h1 h2 h3 h4,
        createheightvals_run_ok s nvtx vheight negative h1 h2 h3 h4]
      simp only [Except.map, successHeights, List.map_map]
      refine congrArg Except.ok (List.map_congr_left ?_)
      intro a ha
      simp only [Function.comp]
      ring
  · have herr := averagePhase_snd_err (bucketsOf s nvtx negative) 0 h2
    rw [createheightvals_result_of_err s nvtx (2 * vheight) negative
        SampleError.zeroDivAverage h1 herr,
      createheightvals_result_of_err s nvtx vheight negative
        SampleError.zeroDivAverage h1 herr]
    rfl

/-- C8 witness: the tone fixture at magnitudes 10 and 2 * 10. -/
theorem C8_scale_linear_witness :
    (createheightvals streamTone ((2 : Nat) : Int) (2 * 10) false).result =
      Except.map (List.map (fun x : ℚ => 2 * x))
        (createheightvals streamTone ((2 : Nat) : Int) 10 false).result :=
  C8_scale_linear streamTone ((2 : Nat) : Int) 10 false (by norm_num)

/-- C9 counterexample: a successful sampling pass with a sink attached and
allowNegative = false emits four stage-start messages — reading, conversion
to positive, averaging, scaling — not three, and its trace ends with a
plain unit message, not a sentinel string (the 'Complete' sentinel is put
by the caller `music_displace`, and only after the host-side move phases). -/
theorem C9_counterexample :
    (createheightvals streamTone ((2 : Nat) : Int) 10 false).result =
      Except.ok [(5 : ℚ), 10] ∧
    ((createheightvals streamTone ((2 : Nat) : Int) 10 false).trace.countP
      (fun m => isStageMsg m)) = 4 ∧
    (createheightvals streamTone ((2 : Nat) : Int) 10 false).trace.getLast? =
      some (QMsg.unit 1) := by
  refine ⟨eval_tone_run10, by decide, by decide⟩

/-- C9 (amended): a successful sampling pass emits, in order, a reading
stage, (when allowNegative is false) a convert-to-positive stage, an
averaging stage and a scaling stage — four stage-start messages when
allowNegative is false, three when it is true — each followed by one unit
message per bucket; the sampler itself emits no sentinel, and the caller
`music_displace` appends the 'Complete' string only after the host-side
move trace. -/
theorem C9_amended (s : WaveStream) (n : Nat) (vheight : ℚ) (negative : Bool)
    (moveTrace : List QMsg) (hs : List ℚ)
    (h : (createheightvals s (n : Int) vheight negative).result = Except.ok hs) :
    (createheightvals s (n : Int) vheight negative).trace =
      QMsg.stage "Reading WAV Data" (n : Int) :: unitMsgs n
        ++ (if negative then []
            else QMsg.stage "Converting all Values to Positive" (n : Int) :: unitMsgs n)
        ++ QMsg.stage "Averaging Amplitude values" (n : Int) :: unitMsgs n
        ++ QMsg.stage "Scaling to Magnitude Value" (n : Int) :: unitMsgs n ∧
    ((createheightvals s (n : Int) vheight negative).trace.countP
      (fun m => isStageMsg m)) = (if negative then 3 else 4) ∧
    music_displace_trace s (n : Int) vheight negative moveTrace =
      (createheightvals s (n : Int) vheight negative).trace
        ++ moveTrace ++ [QMsg.text "Complete"] := by
  obtain ⟨h1, h2, h3, h4, -⟩ :=
    createheightvals_ok_elim s (n : Int) vheight negative hs h
  have htrace : (createheightvals s (n : Int) vheight negative).trace =
      successTrace (n : Int) negative := by
    rw [createheightvals_run_ok s (n : Int) vheight negative h1 h2 h3 h4]
  have hton : ((n : Int)).toNat = n := Int.toNat_ofNat n
  have hstage : ∀ (name : String) (total : Int),
      isStageMsg (QMsg.stage name total) = true := fun _ _ => rfl
  have hu : ∀ k, (unitMsgs k).countP (fun m => isStageMsg m) = 0 := by
    intro k
    rw [unitMsgs]
    simp [List.countP_map, Function.comp, show ∀ i : Nat,
      isStageMsg (QMsg.unit i) = false from fun _ => rfl]
  refine ⟨?_, ?_, rfl⟩
  · rw [htrace, successTrace, hton]
  · rw [htrace, successTrace, hton]
    cases negative <;>
      simp [List.countP_append, List.countP_cons, hstage, hu]

/-- C9 witness: the amended statement at the tone fixture, vertexCount 2,
allowNegative = false, empty move trace. -/
theorem C9_amended_witness :
    (createheightvals streamTone ((2 : Nat) : Int) 10 false).trace =
      QMsg.stage "Reading WAV Data" ((2 : Nat) : Int) :: unitMsgs 2
        ++ (if false then []
            else QMsg.stage "Converting all Values to Positive" ((2 : Nat) : Int) :: unitMsgs 2)
        ++ QMsg.stage "Averaging Amplitude values" ((2 : Nat) : Int) :: unitMsgs 2
        ++ QMsg.stage "Scaling to Magnitude Value" ((2 : Nat) : Int) :: unitMsgs 2 ∧
    ((createheightvals streamTone ((2 : Nat) : Int) 10 false).trace.countP
      (fun m => isStageMsg m)) = (if false then 3 else 4) ∧
    music_displace_trace streamTone ((2 : Nat) : Int) 10 false [] =
      (createheightvals streamTone ((2 : Nat) : Int) 10 false).trace
        ++ [] ++ [QMsg.text "Complete"] :=
  C9_amended streamTone 2 10 false [] [(5 : ℚ), 10] eval_tone_run10

end MTG
